import Mathlib

/-!
Verification development for the atomai training/inference orchestration core
(`atomai/atomnet.py`) and the DKL-GPR composition (`atomai/models/dklgp/dklgpr.py`).

The Python code is shallowly embedded: numpy arrays become Lists, the four
input containers (list / dict / 4D array) become an inductive `TrainData`,
Python floats relevant to the training loop become `PyFloat` (NaN, ±∞, or an
exact rational), exceptions become `Except` errors, and the opaque external
collaborators (the neural network forward/backward passes, the gpytorch
kernel machinery) become function parameters or function-valued fields.
-/

namespace AtomAI

/-- Label sample: one ground-truth mask, flattened to its pixel values.
Only the multiset of values matters to the code under verification
(`np.unique` counts distinct values). -/
abbrev LabelSample := List ℤ

/-- Python float values observable in the training loop: NaN, +inf, -inf or a
finite value (modelled as an exact rational). -/
inductive PyFloat where
  | nan
  | inf
  | negInf
  | fin (q : ℚ)
  deriving DecidableEq

/-- Python `<` on floats: any comparison with NaN is False; -inf is below
everything except itself and NaN; +inf is above everything except itself
and NaN. -/
def PyFloat.lt : PyFloat → PyFloat → Bool
  | .nan, _ => false
  | _, .nan => false
  | _, .negInf => false
  | .negInf, _ => true
  | .inf, _ => false
  | _, .inf => true
  | .fin a, .fin b => decide (a < b)

/-- Python `min` over a list: keep the current minimum, replacing it whenever a
later item compares strictly below it.  Python's `min([])` raises; the code
only ever calls it on a non-empty list (guarded by `e > 0`), so the `[]` case
here is unreachable and mapped to NaN. -/
def pyMin : List PyFloat → PyFloat
  | [] => .nan
  | x :: xs => xs.foldl (fun m y => if PyFloat.lt y m then y else m) x

/-- Errors raised by the `net_train` constructor, named after the spec's error
taxonomy (§7).  In the source they are AssertionError (formatMismatch,
inconsistentClasses, missingBackgroundClass), NotImplementedError
(unsupportedModelType, unsupportedLoss), ValueError (from `np.split` /
`np.random.randint`) and NameError (the unbound name at line 144). -/
inductive InitError where
  | formatMismatch
  | inconsistentClasses
  | missingBackgroundClass
  | unsupportedModelType
  | unsupportedLoss
  | valueError
  | nameError
  deriving DecidableEq

/-- The three accepted input containers of `net_train.__init__`: a list of
per-batch arrays, a dict of per-batch arrays, or one bulk array of stacked
samples (`α` is the per-sample payload). -/
inductive TrainData (α : Type) where
  | list (batches : List (List α))
  | dict (entries : List (String × List α))
  | ndarray (samples : List α)

/-- Container tag, used for the `type(...) == type(...)` chain at lines 80-82. -/
def TrainData.formTag {α : Type} : TrainData α → ℕ
  | .list _ => 0
  | .dict _ => 1
  | .ndarray _ => 2

/-- Integer `np.divmod(n, b)`: quotient and remainder. -/
def npDivmod (n b : ℕ) : ℕ × ℕ := (n / b, n % b)

/-- Splits `xs` into `k` chunks of `csize` elements each (the elements beyond
`k * csize` are dropped; `np.split` only reaches this with
`csize = xs.length / k` exact). -/
def splitIntoChunks {α : Type} (csize : ℕ) : ℕ → List α → List (List α)
  | 0, _ => []
  | k + 1, xs => xs.take csize :: splitIntoChunks csize k (xs.drop csize)

/-- Model of `np.split(arr, k)` along the first axis: raises ValueError unless
`k` is positive and divides the length, in which case it returns `k` chunks of
`length / k` samples each. -/
def npSplit {α : Type} (xs : List α) (k : ℕ) : Except InitError (List (List α)) :=
  if k = 0 then .error .valueError
  else if xs.length % k ≠ 0 then .error .valueError
  else .ok (splitIntoChunks (xs.length / k) k xs)

/-- Model of `len(np.unique(lab))` for one label chunk: the number of distinct
pixel values across all samples of the chunk. -/
def uniqueCount (lab : List LabelSample) : ℕ := lab.flatten.dedup.length

/-- Lines 83-107 of `net_train.__init__` applied to a sequence of label chunks:
build the set of per-chunk distinct-value counts, demand that it is a
singleton, reject cardinality 1, and map cardinality 2 to one output channel. -/
def numClassesFrom (chunks : List (List LabelSample)) : Except InitError ℕ :=
  match (chunks.map uniqueCount).dedup with
  | [k] =>
      if k = 1 then .error .missingBackgroundClass
      else .ok (if k = 2 then 1 else k)
  | _ => .error .inconsistentClasses

/-- Output of the Batch Normalizer (lines 80-107): the four inputs as uniform
sequences of batches, plus the detected class cardinality (post binary
normalization). -/
structure NormalizedData (Img : Type) where
  imagesAll : List (List Img)
  labelsAll : List (List LabelSample)
  imagesTestAll : List (List Img)
  labelsTestAll : List (List LabelSample)
  numClasses : ℕ
  deriving DecidableEq

/-- The Batch Normalizer: lines 80-107 of `net_train.__init__`.  All four
inputs must use the same container form (lines 80-82); the list and dict forms
are taken as given, the bulk-array form is split with `np.split` into
`floor(n / batch_size)` sections where `n` is the corresponding *label* array
length (lines 88-94); the class cardinality is computed from the training
label chunks only (lines 83-87, 95) and validated (lines 102-107). -/
def batchNormalize {Img : Type} (imagesAll : TrainData Img)
    (labelsAll : TrainData LabelSample) (imagesTestAll : TrainData Img)
    (labelsTestAll : TrainData LabelSample) (batchSize : ℕ) :
    Except InitError (NormalizedData Img) :=
  match imagesAll, labelsAll, imagesTestAll, labelsTestAll with
  | .list ia, .list la, .list ita, .list lta => do
      let k ← numClassesFrom la
      pure ⟨ia, la, ita, lta, k⟩
  | .dict ia, .dict la, .dict ita, .dict lta => do
      let k ← numClassesFrom (la.map Prod.snd)
      pure ⟨ia.map Prod.snd, la.map Prod.snd, ita.map Prod.snd,
            lta.map Prod.snd, k⟩
  | .ndarray ia, .ndarray la, .ndarray ita, .ndarray lta => do
      let nTr := (npDivmod la.length batchSize).1
      let nTe := (npDivmod lta.length batchSize).1
      let iaC ← npSplit ia nTr
      let laC ← npSplit la nTr
      let itaC ← npSplit ita nTe
      let ltaC ← npSplit lta nTe
      let k ← numClassesFrom laC
      pure ⟨iaC, laC, itaC, ltaC, k⟩
  | _, _, _, _ => .error .formatMismatch

/-- Module-level names bound in `atomai/atomnet.py` when `net_train.__init__`
executes: the imports of lines 5-15 and the two classes defined by the module. -/
def atomnetModuleGlobals : List String :=
  ["os", "time", "np", "torch", "F", "dice", "dilnet", "dilUnet",
   "torch_format", "load_model", "Hook", "mock_forward", "plot_losses",
   "img_pad", "img_resize", "net_train", "net_predict"]

/-- Local names of `net_train.__init__`: its parameters (lines 63-78) and the
names assigned inside the body before line 144. -/
def netTrainInitLocalNames : List String :=
  ["self", "images_all", "labels_all", "images_test_all", "labels_test_all",
   "training_cycles", "batch_size", "model", "model_type", "use_batchnorm",
   "use_dropouts", "loss", "with_dilation", "print_loss", "savedir",
   "plot_losses", "num_classes", "n_train_batches", "n_test_batches", "_"]

/-- Python builtins the constructor could also resolve a bare name against. -/
def pyBuiltinNames : List String :=
  ["type", "len", "set", "list", "dict", "min", "max", "range", "print",
   "str", "isinstance", "float", "int"]

/-- Name resolution for a bare name inside `net_train.__init__`: locals, then
module globals, then builtins.  `plot_training_history` appears in none of
them (the parameter at line 78 is named `plot_losses`), so line 144 raises
NameError. -/
def nameInScope (s : String) : Bool :=
  netTrainInitLocalNames.contains s || atomnetModuleGlobals.contains s ||
    pyBuiltinNames.contains s

/-- Model of `np.random.randint(low, high, size)`: raises ValueError when
`high <= low` (even for size 0), otherwise draws `size` values in
`[low, high)`; the draws are represented by the caller-supplied stream `rng`. -/
def npRandint (low high size : ℕ) (rng : ℕ → ℕ) : Except InitError (List ℕ) :=
  if high ≤ low then .error .valueError
  else .ok ((List.range size).map (fun i => low + rng i % (high - low)))

/-- The two network skeletons selectable at lines 108-117. -/
inductive ModelKind where
  | dilUnet
  | dilnet
  deriving DecidableEq

/-- The loss selected at lines 120-129. -/
inductive LossKind where
  | diceLoss
  | bceWithLogits
  | crossEntropy
  deriving DecidableEq

/-- The fully initialized training controller (the attributes stored at lines
130-145 of `net_train.__init__`, with the network / optimizer collaborators
kept abstract). -/
structure NetTrain (Img : Type) where
  imagesAll : List (List Img)
  labelsAll : List (List LabelSample)
  imagesTestAll : List (List Img)
  labelsTestAll : List (List LabelSample)
  numClasses : ℕ
  modelKind : ModelKind
  lossKind : LossKind
  batchIdxTrain : List ℕ
  batchIdxTest : List ℕ
  batchSize : ℕ
  trainingCycles : ℕ
  printLoss : ℕ
  deriving DecidableEq

/-- One mini-batch handed to `train_step` / `test_step`: images plus labels. -/
abbrev Batch (Img : Type) := List Img × List LabelSample

/-- Model of `net_train.dataloader` (lines 148-159): select batch `batchNum`
and truncate both arrays to the first `batchSize` samples (the tensor/device
conversions carry no information at this level of abstraction). -/
def dataloader {Img : Type} (imagesAll : List (List Img))
    (labelsAll : List (List LabelSample)) (batchNum batchSize : ℕ) : Batch Img :=
  ((imagesAll.getD batchNum []).take batchSize,
   (labelsAll.getD batchNum []).take batchSize)

/-- The model-skeleton dispatch at lines 108-117 (the network construction
itself is an external collaborator; only the selection and its
NotImplementedError matter here). -/
def selectModelKind (modelType : String) : Except InitError ModelKind :=
  if modelType = "dilUnet" then .ok .dilUnet
  else if modelType = "dilnet" then .ok .dilnet
  else .error .unsupportedModelType

/-- The loss dispatch at lines 120-129 (note: after the binary normalization
`num_classes` is never 2, so the `'ce'` guards cover cardinalities 1 and
greater than 2 only). -/
def selectLossKind (lossName : String) (numClasses : ℕ) :
    Except InitError LossKind :=
  if lossName = "dice" then .ok .diceLoss
  else if lossName = "ce" && numClasses == 1 then .ok .bceWithLogits
  else if lossName = "ce" && decide (2 < numClasses) then .ok .crossEntropy
  else .error .unsupportedLoss

/-- Model of `net_train.__init__` (lines 63-146): run the Batch Normalizer,
dispatch the model skeleton (lines 108-117) and the loss (lines 120-129), draw
the random batch indices (lines 130-133), and then - at line 144 - read the
bare name `plot_training_history`, which is not bound in any enclosing scope.
`rngTr`/`rngTe` supply the random draws of `np.random.randint`. -/
def netTrainInit {Img : Type} (imagesAll : TrainData Img)
    (labelsAll : TrainData LabelSample) (imagesTestAll : TrainData Img)
    (labelsTestAll : TrainData LabelSample) (trainingCycles batchSize : ℕ)
    (modelType lossName : String) (printLoss : ℕ) (rngTr rngTe : ℕ → ℕ) :
    Except InitError (NetTrain Img) := do
  let nd ← batchNormalize imagesAll labelsAll imagesTestAll labelsTestAll
    batchSize
  let mk ← selectModelKind modelType
  let lk ← selectLossKind lossName nd.numClasses
  let idxTr ← npRandint 0 nd.imagesAll.length trainingCycles rngTr
  let idxTe ← npRandint 0 nd.imagesTestAll.length trainingCycles rngTe
  if nameInScope "plot_training_history" then
    pure ⟨nd.imagesAll, nd.labelsAll, nd.imagesTestAll, nd.labelsTestAll,
          nd.numClasses, mk, lk, idxTr, idxTe, batchSize, trainingCycles,
          printLoss⟩
  else .error .nameError

/-- The training batch selected at cycle `e` (lines 182-184). -/
def trainBatchAt {Img : Type} (nt : NetTrain Img) (e : ℕ) : Batch Img :=
  dataloader nt.imagesAll nt.labelsAll (nt.batchIdxTrain.getD e 0) nt.batchSize

/-- The test batch selected at cycle `e` (lines 188-190). -/
def testBatchAt {Img : Type} (nt : NetTrain Img) (e : ℕ) : Batch Img :=
  dataloader nt.imagesTestAll nt.labelsTestAll (nt.batchIdxTest.getD e 0)
    nt.batchSize

/-- Observable state of `net_train.run` after some number of cycles: the live
network parameters (`M` is the opaque parameter-snapshot type), the two
growing loss histories, and every write of the best-checkpoint file, in
order, as (cycle, recorded test loss, persisted parameters). -/
structure RunState (M : Type) where
  net : M
  trainLoss : List PyFloat
  testLoss : List PyFloat
  bestSaved : List (ℕ × PyFloat × M)

variable {Img M : Type}

/-- One iteration of the loop at lines 180-203: training step (forward /
backward / update, returning the new parameters and the scalar training
loss), test step (loss only), then the best-checkpoint test
`e > 0 and test_loss[-1] < min(test_loss[:-1])` (line 201).  The stepper
functions are the opaque network/loss collaborators of spec §6. -/
def runCycle (trainStepF : M → Batch Img → M × PyFloat)
    (testStepF : M → Batch Img → PyFloat) (nt : NetTrain Img)
    (s : RunState M) (e : ℕ) : RunState M :=
  let step := trainStepF s.net (trainBatchAt nt e)
  let testLossE := testStepF step.1 (testBatchAt nt e)
  let best :=
    if decide (0 < e) && PyFloat.lt testLossE (pyMin s.testLoss) then
      s.bestSaved ++ [(e, testLossE, step.1)]
    else s.bestSaved
  ⟨step.1, s.trainLoss ++ [step.2], s.testLoss ++ [testLossE], best⟩

/-- The loop of `net_train.run` iterated for the first `n` cycles, from the
freshly initialized parameters `net0`. -/
def runLoop (trainStepF : M → Batch Img → M × PyFloat)
    (testStepF : M → Batch Img → PyFloat) (nt : NetTrain Img) (net0 : M) :
    ℕ → RunState M
  | 0 => ⟨net0, [], [], []⟩
  | n + 1 =>
      runCycle trainStepF testStepF nt
        (runLoop trainStepF testStepF nt net0 n) n

/-- Parameters held by the model after `e` completed cycles. -/
def netAfter (trainStepF : M → Batch Img → M × PyFloat)
    (testStepF : M → Batch Img → PyFloat) (nt : NetTrain Img) (net0 : M)
    (e : ℕ) : M :=
  (runLoop trainStepF testStepF nt net0 e).net

/-- The test loss recorded at cycle `e` (computed on the parameters just
updated by the cycle's training step). -/
def testLossSeq (trainStepF : M → Batch Img → M × PyFloat)
    (testStepF : M → Batch Img → PyFloat) (nt : NetTrain Img) (net0 : M)
    (e : ℕ) : PyFloat :=
  testStepF (trainStepF (netAfter trainStepF testStepF nt net0 e)
    (trainBatchAt nt e)).1 (testBatchAt nt e)

/-- The best-checkpoint condition of line 201 evaluated at cycle `e`. -/
def saveCondAt (trainStepF : M → Batch Img → M × PyFloat)
    (testStepF : M → Batch Img → PyFloat) (nt : NetTrain Img) (net0 : M)
    (e : ℕ) : Bool :=
  decide (0 < e) && PyFloat.lt (testLossSeq trainStepF testStepF nt net0 e)
    (pyMin ((List.range e).map (testLossSeq trainStepF testStepF nt net0)))

/-- Line 146 of the constructor: on success, `self.run()` would execute the
training loop.  Models the only call site of `net_train.run`. -/
def netTrainInitAndRun (trainStepF : M → Batch Img → M × PyFloat)
    (testStepF : M → Batch Img → PyFloat) (net0 : M)
    (imagesAll : TrainData Img) (labelsAll : TrainData LabelSample)
    (imagesTestAll : TrainData Img) (labelsTestAll : TrainData LabelSample)
    (trainingCycles batchSize : ℕ) (modelType lossName : String)
    (printLoss : ℕ) (rngTr rngTe : ℕ → ℕ) : Except InitError (RunState M) :=
  (netTrainInit imagesAll labelsAll imagesTestAll labelsTestAll trainingCycles
    batchSize modelType lossName printLoss rngTr rngTe).map
    (fun nt => runLoop trainStepF testStepF nt net0 nt.trainingCycles)

/-- Input state of `net_predict.run` after the constructor's preprocessing
(lines 278-283): the padded image stack (`imageData`, stacked along the first
axis) with its spatial dimensions, and the inferred class count.  The tensor
shape `(n, 1, height, width)` is represented by the list plus the two
dimensions. -/
structure NetPredictIn (Img : Type) where
  imageData : List Img
  height : ℕ
  width : ℕ
  nbClasses : ℕ

/-- Model of `net_predict.predict` (lines 287-304): move the batch through the
network in eval mode, apply softmax (multi-class) or sigmoid (single class)
along the channel axis and permute to channel-last.  The network forward pass
in eval mode, the softmax/sigmoid and the permutation all act on each sample
of the batch independently (spec §6, Model Skeleton), so predict is the
per-sample map of one composite function `fw : Img → Prob`. -/
def netPredictPredict {Img Prob : Type} (fw : Img → Prob) (images : List Img) :
    List Prob :=
  images.map fw

/-- Model of `net_predict.run` (lines 306-315).  Returns the decoded
probability maps together with the trace of batch sizes handed to `predict`:
one call with the whole stack when the stack has fewer than 20 images and the
smaller spatial dimension is below 512 (line 309), otherwise one call per
image (lines 312-315). -/
def netPredictRun {Img Prob : Type} (fw : Img → Prob) (s : NetPredictIn Img) :
    List Prob × List ℕ :=
  if s.imageData.length < 20 ∧ min s.height s.width < 512 then
    (netPredictPredict fw s.imageData, [s.imageData.length])
  else
    ((s.imageData.map (fun im => netPredictPredict fw [im])).flatten,
     List.replicate s.imageData.length 1)

/-- Error raised by `dklGPR.decode` on an independent-output model (the
NotImplementedError at lines 163-165, `UnsupportedMode` in the spec's error
taxonomy). -/
inductive DklError where
  | unsupportedMode
  deriving DecidableEq

/-- The DKL-GPR model state visible to `decode` (dklgpr.py): the output
correlation mode, the lazily cached prediction strategy, the cached training
inputs, and the gpytorch collaborators (feature extractor, input-bounding
transform, mean and covariance modules, and the exact-prediction map of the
prediction strategy) as opaque function fields.  `X` is the raw input type,
`Z` the latent/embedding type, `P` the prediction-strategy type and `O` the
(mean, variance) output type. -/
structure DklGPR (X Z P O : Type) where
  correlatedOutput : Bool
  predictionStrategy : Option P
  trainInputs : List X
  featureExtractor : List X → List Z
  scaleToBounds : List Z → List Z
  freshStrategy : P
  meanModule : List Z → List ℚ
  covarModule : List Z → List (List ℚ)
  exactPrediction : P → List ℚ → List (List ℚ) → O

/-- Model of `dklGPR.decode` (lines 158-187): refuse independent-output mode;
otherwise populate the prediction strategy if absent (the lazy posterior query
at lines 169-170, whose freshly computed strategy is the `freshStrategy`
field), embed the cached training inputs, concatenate the supplied latent
points in front of the training embeddings, rescale, evaluate the GP prior's
mean and covariance over the combined set and apply the cached exact
prediction.  Returns the result together with the (possibly updated) model. -/
def decode {X Z P O : Type} (m : DklGPR X Z P O) (zEmb : List Z) :
    Except DklError (O × DklGPR X Z P O) :=
  if m.correlatedOutput = false then .error .unsupportedMode
  else
    let pstrategy := m.predictionStrategy.getD m.freshStrategy
    let updated := { m with predictionStrategy := some pstrategy }
    let zTrain := m.featureExtractor m.trainInputs
    let z := m.scaleToBounds (zEmb ++ zTrain)
    .ok (m.exactPrediction pstrategy (m.meanModule z) (m.covarModule z),
         updated)

/-- Concrete two-cycle training setup used to instantiate the run-loop
theorems on explicit inputs: one training batch, two test batches selected in
order by the drawn indices, batch size 1. -/
def ntW : NetTrain ℕ :=
  ⟨[[0]], [[[0]]], [[0], [1]], [[[0]], [[0]]], 1, .dilUnet, .diceLoss,
   [0, 0], [0, 1], 1, 2, 100⟩

/-- Parameter-free training stepper with constant training loss 0. -/
def trFW : Unit → Batch ℕ → Unit × PyFloat := fun _ _ => ((), .fin 0)

/-- Test stepper recording losses 2 then 1 (a strict improvement at cycle 1). -/
def teFW : Unit → Batch ℕ → PyFloat := fun _ b =>
  match b.1 with
  | [1] => .fin 1
  | _ => .fin 2

/-- Test stepper recording losses 1 then 2 (minimum at cycle 0, never
strictly improved on afterwards). -/
def teFW7 : Unit → Batch ℕ → PyFloat := fun _ b =>
  match b.1 with
  | [1] => .fin 2
  | _ => .fin 1

/-- Test stepper recording losses 1 then -inf (non-finite loss at cycle 1). -/
def teFW9 : Unit → Batch ℕ → PyFloat := fun _ b =>
  match b.1 with
  | [1] => .negInf
  | _ => .fin 1

/-- The rational test-loss sequence produced by `teFW` on `ntW`. -/
def LW : ℕ → ℚ := fun j => if j = 1 then 1 else 2

/-- An independent-output (non-shared-embedding) DKL-GPR instance. -/
def dklIndep : DklGPR ℕ ℕ ℕ ℕ :=
  ⟨false, none, [], id, id, 0, fun _ => [], fun _ => [], fun _ _ _ => 0⟩

lemma PyFloat.lt_nan_left (x : PyFloat) : PyFloat.lt .nan x = false := by
  cases x <;> rfl

lemma PyFloat.lt_inf_left (x : PyFloat) : PyFloat.lt .inf x = false := by
  cases x <;> rfl

lemma pyMin_fold_fin (rest : List ℚ) (a : ℚ) :
    (rest.map PyFloat.fin).foldl (fun m y => if PyFloat.lt y m then y else m)
      (.fin a) =
    .fin (rest.foldl (fun m y => if y < m then y else m) a) := by
  induction rest generalizing a with
  | nil => rfl
  | cons b t ih =>
      simp only [List.map_cons, List.foldl_cons]
      have hstep : (if PyFloat.lt (.fin b) (.fin a) then PyFloat.fin b
          else PyFloat.fin a) = PyFloat.fin (if b < a then b else a) := by
        by_cases h : b < a <;> simp [PyFloat.lt, h]
      rw [hstep]
      exact ih _

lemma qMinFold_spec (rest : List ℚ) (a : ℚ) :
    (rest.foldl (fun m y => if y < m then y else m) a = a ∨
      rest.foldl (fun m y => if y < m then y else m) a ∈ rest) ∧
    rest.foldl (fun m y => if y < m then y else m) a ≤ a ∧
    ∀ q ∈ rest, rest.foldl (fun m y => if y < m then y else m) a ≤ q := by
  induction rest generalizing a with
  | nil => simp
  | cons b t ih =>
      simp only [List.foldl_cons, List.mem_cons]
      by_cases h : b < a
      · simp only [if_pos h]
        obtain ⟨hmem, hle, hall⟩ := ih b
        refine ⟨?_, le_trans hle (le_of_lt h), ?_⟩
        · rcases hmem with h1 | h1
          · exact Or.inr (Or.inl h1)
          · exact Or.inr (Or.inr h1)
        · intro q hq
          rcases hq with rfl | hq
          · exact hle
          · exact hall q hq
      · simp only [if_neg h]
        obtain ⟨hmem, hle, hall⟩ := ih a
        push_neg at h
        refine ⟨?_, hle, ?_⟩
        · rcases hmem with h1 | h1
          · exact Or.inl h1
          · exact Or.inr (Or.inr h1)
        · intro q hq
          rcases hq with rfl | hq
          · exact le_trans hle h
          · exact hall q hq

lemma lt_pyMin_fin_iff (x : ℚ) (qs : List ℚ) (h : qs ≠ []) :
    PyFloat.lt (.fin x) (pyMin (qs.map .fin)) = true ↔ ∀ q ∈ qs, x < q := by
  cases qs with
  | nil => exact absurd rfl h
  | cons a t =>
      have : pyMin ((a :: t).map PyFloat.fin) =
          .fin (t.foldl (fun m y => if y < m then y else m) a) := by
        simp only [List.map_cons, pyMin]
        exact pyMin_fold_fin t a
      rw [this]
      simp only [PyFloat.lt, decide_eq_true_eq, List.mem_cons]
      obtain ⟨hmem, hle, hall⟩ := qMinFold_spec t a
      constructor
      · intro hx q hq
        rcases hq with rfl | hq
        · exact lt_of_lt_of_le hx hle
        · exact lt_of_lt_of_le hx (hall q hq)
      · intro hq
        rcases hmem with h1 | h1
        · rw [h1]; exact hq a (Or.inl rfl)
        · exact hq _ (Or.inr h1)

lemma runLoop_testLoss (trainStepF : M → Batch Img → M × PyFloat)
    (testStepF : M → Batch Img → PyFloat) (nt : NetTrain Img) (net0 : M)
    (n : ℕ) :
    (runLoop trainStepF testStepF nt net0 n).testLoss =
      (List.range n).map (testLossSeq trainStepF testStepF nt net0) := by
  induction n with
  | zero => rfl
  | succ n ih =>
      rw [List.range_succ, List.map_append]
      show (runCycle trainStepF testStepF nt
        (runLoop trainStepF testStepF nt net0 n) n).testLoss = _
      simp only [runCycle]
      rw [ih]
      rfl

lemma runLoop_testLoss_length (trainStepF : M → Batch Img → M × PyFloat)
    (testStepF : M → Batch Img → PyFloat) (nt : NetTrain Img) (net0 : M)
    (n : ℕ) :
    (runLoop trainStepF testStepF nt net0 n).testLoss.length = n := by
  rw [runLoop_testLoss]
  simp

lemma runLoop_bestSaved_succ (trainStepF : M → Batch Img → M × PyFloat)
    (testStepF : M → Batch Img → PyFloat) (nt : NetTrain Img) (net0 : M)
    (n : ℕ) :
    (runLoop trainStepF testStepF nt net0 (n + 1)).bestSaved =
      (runLoop trainStepF testStepF nt net0 n).bestSaved ++
        (if saveCondAt trainStepF testStepF nt net0 n then
          [(n, testLossSeq trainStepF testStepF nt net0 n,
            netAfter trainStepF testStepF nt net0 (n + 1))]
        else []) := by
  have htl : testLossSeq trainStepF testStepF nt net0 n =
      testStepF (trainStepF (runLoop trainStepF testStepF nt net0 n).net
        (trainBatchAt nt n)).1 (testBatchAt nt n) := rfl
  have hnet : netAfter trainStepF testStepF nt net0 (n + 1) =
      (trainStepF (runLoop trainStepF testStepF nt net0 n).net
        (trainBatchAt nt n)).1 := rfl
  show (runCycle trainStepF testStepF nt
    (runLoop trainStepF testStepF nt net0 n) n).bestSaved = _
  simp only [runCycle, saveCondAt]
  simp only [htl, hnet, runLoop_testLoss]
  split
  next => rfl
  next => rw [List.append_nil]

lemma mem_bestSaved (trainStepF : M → Batch Img → M × PyFloat)
    (testStepF : M → Batch Img → PyFloat) (nt : NetTrain Img) (net0 : M)
    (n e : ℕ) (l : PyFloat) (m : M) :
    (e, l, m) ∈ (runLoop trainStepF testStepF nt net0 n).bestSaved ↔
      (e < n ∧ saveCondAt trainStepF testStepF nt net0 e = true ∧
        l = testLossSeq trainStepF testStepF nt net0 e ∧
        m = netAfter trainStepF testStepF nt net0 (e + 1)) := by
  induction n with
  | zero =>
      simp only [runLoop, List.not_mem_nil, false_iff]
      rintro ⟨h, -⟩
      exact absurd h (Nat.not_lt_zero e)
  | succ n ih =>
      rw [runLoop_bestSaved_succ, List.mem_append, ih]
      by_cases h : saveCondAt trainStepF testStepF nt net0 n
      · simp only [if_pos h, List.mem_singleton, Prod.mk.injEq]
        constructor
        · rintro (⟨h1, h2, h3, h4⟩ | ⟨rfl, rfl, rfl⟩)
          · exact ⟨Nat.lt_succ_of_lt h1, h2, h3, h4⟩
          · exact ⟨Nat.lt_succ_self _, h, rfl, rfl⟩
        · rintro ⟨h1, h2, h3, h4⟩
          rcases Nat.lt_succ_iff_lt_or_eq.mp h1 with h1 | rfl
          · exact Or.inl ⟨h1, h2, h3, h4⟩
          · exact Or.inr ⟨rfl, h3, h4⟩
      · simp only [if_neg h, List.not_mem_nil, or_false]
        constructor
        · rintro ⟨h1, h2, h3, h4⟩
          exact ⟨Nat.lt_succ_of_lt h1, h2, h3, h4⟩
        · rintro ⟨h1, h2, h3, h4⟩
          rcases Nat.lt_succ_iff_lt_or_eq.mp h1 with h1 | rfl
          · exact ⟨h1, h2, h3, h4⟩
          · exact absurd h2 (by simp [h])

lemma saveCondAt_iff_fin (trainStepF : M → Batch Img → M × PyFloat)
    (testStepF : M → Batch Img → PyFloat) (nt : NetTrain Img) (net0 : M)
    (L : ℕ → ℚ)
    (hL : ∀ j, testLossSeq trainStepF testStepF nt net0 j = .fin (L j))
    (e : ℕ) :
    saveCondAt trainStepF testStepF nt net0 e = true ↔
      0 < e ∧ ∀ j < e, L e < L j := by
  unfold saveCondAt
  rw [Bool.and_eq_true, decide_eq_true_eq, hL e]
  rcases Nat.eq_zero_or_pos e with rfl | he
  · simp
  · have hmap : (List.range e).map (testLossSeq trainStepF testStepF nt net0) =
        ((List.range e).map L).map PyFloat.fin := by
      rw [List.map_map]
      exact List.map_congr_left (fun j _ => hL j)
    have hne : (List.range e).map L ≠ [] := by
      simp only [ne_eq, List.map_eq_nil_iff, List.range_eq_nil]
      omega
    rw [hmap, lt_pyMin_fin_iff _ _ hne]
    constructor
    · rintro ⟨-, hall⟩
      refine ⟨he, fun j hj => hall (L j) ?_⟩
      exact List.mem_map_of_mem L (List.mem_range.mpr hj)
    · rintro ⟨-, hall⟩
      refine ⟨he, ?_⟩
      rintro q hq
      rcases List.mem_map.mp hq with ⟨j, hj, rfl⟩
      exact hall j (List.mem_range.mp hj)

lemma bestSaved_getLast_min (trainStepF : M → Batch Img → M × PyFloat)
    (testStepF : M → Batch Img → PyFloat) (nt : NetTrain Img) (net0 : M)
    (L : ℕ → ℚ)
    (hL : ∀ j, testLossSeq trainStepF testStepF nt net0 j = .fin (L j)) :
    ∀ (n e : ℕ) (l : PyFloat) (m : M),
      ((runLoop trainStepF testStepF nt net0 n).bestSaved).getLast? =
        some (e, l, m) →
      e < n ∧ 0 < e ∧ l = .fin (L e) ∧ (∀ j < e, L e < L j) ∧
        ∀ j < n, L e ≤ L j := by
  intro n
  induction n with
  | zero => intro e l m h; simp [runLoop] at h
  | succ n ih =>
      intro e l m h
      rw [runLoop_bestSaved_succ] at h
      by_cases hc : saveCondAt trainStepF testStepF nt net0 n
      · rw [if_pos hc, List.getLast?_concat] at h
        obtain ⟨rfl, rfl, rfl⟩ : n = e ∧
            testLossSeq trainStepF testStepF nt net0 n = l ∧
            netAfter trainStepF testStepF nt net0 (n + 1) = m := by
          simpa [Prod.ext_iff] using h
        obtain ⟨hn0, hstrict⟩ :=
          (saveCondAt_iff_fin trainStepF testStepF nt net0 L hL n).mp hc
        refine ⟨Nat.lt_succ_self _, hn0, hL n, hstrict, ?_⟩
        intro j hj
        rcases Nat.lt_succ_iff_lt_or_eq.mp hj with hj | rfl
        · exact le_of_lt (hstrict j hj)
        · exact le_refl _
      · rw [if_neg hc, List.append_nil] at h
        obtain ⟨h1, h2, h3, h4, h5⟩ := ih e l m h
        refine ⟨Nat.lt_succ_of_lt h1, h2, h3, h4, ?_⟩
        intro j hj
        rcases Nat.lt_succ_iff_lt_or_eq.mp hj with hj | rfl
        · exact h5 j hj
        · have hn0 : 0 < j := lt_trans h2 h1
          have hnc : ¬(0 < j ∧ ∀ i < j, L j < L i) := by
            rw [← saveCondAt_iff_fin trainStepF testStepF nt net0 L hL j]
            exact hc
          push_neg at hnc
          obtain ⟨i, hi, hile⟩ := hnc hn0
          exact le_trans (h5 i hi) hile

lemma splitIntoChunks_length {α : Type} (csize k : ℕ) (xs : List α) :
    (splitIntoChunks csize k xs).length = k := by
  induction k generalizing xs with
  | zero => rfl
  | succ k ih => simp [splitIntoChunks, ih]

lemma splitIntoChunks_sizes {α : Type} (csize : ℕ) :
    ∀ (k : ℕ) (xs : List α), xs.length = k * csize →
      ∀ c ∈ splitIntoChunks csize k xs, c.length = csize := by
  intro k
  induction k with
  | zero => intro xs h c hc; simp [splitIntoChunks] at hc
  | succ k ih =>
      intro xs h c hc
      rw [Nat.succ_mul] at h
      simp only [splitIntoChunks, List.mem_cons] at hc
      rcases hc with rfl | hc
      · rw [List.length_take, h]
        omega
      · refine ih (xs.drop csize) ?_ c hc
        rw [List.length_drop, h]
        omega

lemma dedup_const {l : List ℕ} {k : ℕ} (hne : l ≠ []) (h : ∀ x ∈ l, x = k) :
    l.dedup = [k] := by
  induction l with
  | nil => exact absurd rfl hne
  | cons a t ih =>
      have ha : a = k := h a (List.mem_cons_self a t)
      subst ha
      rcases eq_or_ne t [] with rfl | hte
      · simp
      · have ht : t.dedup = [a] :=
          ih hte (fun x hx => h x (List.mem_cons_of_mem _ hx))
        have hmem : a ∈ t := by
          cases t with
          | nil => exact absurd rfl hte
          | cons b t2 =>
              have hb : b = a := h b (by simp)
              subst hb
              exact List.mem_cons_self _ _
        rw [List.dedup_cons_of_mem hmem, ht]

lemma numClassesFrom_const {chunks : List (List LabelSample)} {k : ℕ}
    (hne : chunks ≠ []) (h : ∀ c ∈ chunks, uniqueCount c = k) :
    numClassesFrom chunks =
      if k = 1 then .error .missingBackgroundClass
      else .ok (if k = 2 then 1 else k) := by
  unfold numClassesFrom
  have hd : (chunks.map uniqueCount).dedup = [k] := by
    refine dedup_const ?_ ?_
    · simpa using hne
    · intro x hx
      rcases List.mem_map.mp hx with ⟨c, hc, rfl⟩
      exact h c hc
  rw [hd]

lemma numClassesFrom_inconsistent {chunks : List (List LabelSample)}
    {c1 c2 : List LabelSample} (h1 : c1 ∈ chunks) (h2 : c2 ∈ chunks)
    (hcc : uniqueCount c1 ≠ uniqueCount c2) :
    numClassesFrom chunks = .error .inconsistentClasses := by
  unfold numClassesFrom
  have m1 : uniqueCount c1 ∈ (chunks.map uniqueCount).dedup :=
    List.mem_dedup.mpr (List.mem_map_of_mem _ h1)
  have m2 : uniqueCount c2 ∈ (chunks.map uniqueCount).dedup :=
    List.mem_dedup.mpr (List.mem_map_of_mem _ h2)
  cases hd : (chunks.map uniqueCount).dedup with
  | nil =>
      exact absurd (hd ▸ m1) (List.not_mem_nil _)
  | cons a t =>
      cases t with
      | nil =>
          rw [hd] at m1 m2
          simp only [List.mem_singleton] at m1 m2
          exact absurd (m1.trans m2.symm) hcc
      | cons b t2 => rfl

lemma batchNormalize_list {Img : Type} (ia ita : List (List Img))
    (la lta : List (List LabelSample)) (b : ℕ) :
    batchNormalize (.list ia) (.list la) (.list ita) (.list lta) b =
      (numClassesFrom la).map (fun k => ⟨ia, la, ita, lta, k⟩) := by
  cases h : numClassesFrom la <;>
    simp [batchNormalize, h, Except.map, Except.bind, bind, pure, Except.pure]

lemma flatten_map_singleton {α β : Type} (f : α → β) (l : List α) :
    (l.map (fun a => [f a])).flatten = l.map f := by
  induction l with
  | nil => rfl
  | cons a t ih => simp [ih]

lemma except_bind_error_chain {ε α β : Type} (x : Except ε α)
    (f : α → Except ε β) (h : ∀ a, ∃ e, f a = .error e) :
    ∃ e, (x >>= f) = .error e := by
  cases x with
  | error e => exact ⟨e, rfl⟩
  | ok a => exact h a

lemma nameInScope_plot_training_history :
    nameInScope "plot_training_history" = false := by decide

lemma netTrainInit_always_error {Img : Type} (ia : TrainData Img)
    (la : TrainData LabelSample) (ita : TrainData Img)
    (lta : TrainData LabelSample) (tc b : ℕ) (mt ln : String) (pl : ℕ)
    (rT rE : ℕ → ℕ) :
    ∃ err, netTrainInit ia la ita lta tc b mt ln pl rT rE = .error err := by
  unfold netTrainInit
  refine except_bind_error_chain _ _ (fun nd => ?_)
  refine except_bind_error_chain _ _ (fun mk => ?_)
  refine except_bind_error_chain _ _ (fun lk => ?_)
  refine except_bind_error_chain _ _ (fun idxTr => ?_)
  refine except_bind_error_chain _ _ (fun idxTe => ?_)
  refine ⟨.nameError, ?_⟩
  rw [nameInScope_plot_training_history]
  rfl

/-- C4: for every label set supplied to the Batch Normalizer (list form; the
dict and bulk-array forms funnel through the same `numClassesFrom`): if the
per-chunk distinct-value counts disagree it fails with InconsistentClasses; if
the single cardinality equals 1 it fails with MissingBackgroundClass; a
cardinality of 2 yields output channel count 1; a cardinality k > 2 yields
output channel count k. -/
theorem c4_class_cardinality {Img : Type} (ia ita : List (List Img))
    (la lta : List (List LabelSample)) (b : ℕ) :
    ((∃ c1 ∈ la, ∃ c2 ∈ la, uniqueCount c1 ≠ uniqueCount c2) →
      batchNormalize (.list ia) (.list la) (.list ita) (.list lta) b =
        .error .inconsistentClasses) ∧
    ((la ≠ [] ∧ ∀ c ∈ la, uniqueCount c = 1) →
      batchNormalize (.list ia) (.list la) (.list ita) (.list lta) b =
        .error .missingBackgroundClass) ∧
    ((la ≠ [] ∧ ∀ c ∈ la, uniqueCount c = 2) →
      ∃ r, batchNormalize (.list ia) (.list la) (.list ita) (.list lta) b =
        .ok r ∧ r.numClasses = 1) ∧
    (∀ k, 2 < k → la ≠ [] → (∀ c ∈ la, uniqueCount c = k) →
      ∃ r, batchNormalize (.list ia) (.list la) (.list ita) (.list lta) b =
        .ok r ∧ r.numClasses = k) := by
  refine ⟨?_, ?_, ?_, ?_⟩
  · rintro ⟨c1, hc1, c2, hc2, hcc⟩
    rw [batchNormalize_list, numClassesFrom_inconsistent hc1 hc2 hcc]
    rfl
  · rintro ⟨hne, hall⟩
    rw [batchNormalize_list, numClassesFrom_const hne hall]
    rfl
  · rintro ⟨hne, hall⟩
    rw [batchNormalize_list, numClassesFrom_const hne hall]
    exact ⟨⟨ia, la, ita, lta, 1⟩, rfl, rfl⟩
  · intro k hk hne hall
    rw [batchNormalize_list, numClassesFrom_const hne hall]
    have h1 : k ≠ 1 := by omega
    have h2 : k ≠ 2 := by omega
    refine ⟨⟨ia, la, ita, lta, k⟩, ?_, rfl⟩
    rw [if_neg h1, if_neg h2]
    rfl

/-- Witness for C4: inconsistent chunks with 1 and 2 distinct values fail with
InconsistentClasses; all-background labels fail with MissingBackgroundClass;
two distinct values give one output channel; three give three. -/
theorem c4_class_cardinality_witness :
    (batchNormalize (TrainData.list [[(0 : ℕ)]]) (.list [[[0]], [[0], [1]]])
      (.list [[0]]) (.list [[[0]]]) 32 = .error .inconsistentClasses) ∧
    (batchNormalize (TrainData.list [[(0 : ℕ)]]) (.list [[[0]]])
      (.list [[0]]) (.list [[[0]]]) 32 = .error .missingBackgroundClass) ∧
    (∃ r, batchNormalize (TrainData.list [[(0 : ℕ)]]) (.list [[[0], [1]]])
      (.list [[0]]) (.list [[[0]]]) 32 = .ok r ∧ r.numClasses = 1) ∧
    (∃ r, batchNormalize (TrainData.list [[(0 : ℕ)]])
      (.list [[[0], [1], [2]]]) (.list [[0]]) (.list [[[0]]]) 32 = .ok r ∧
      r.numClasses = 3) := by
  refine ⟨?_, ?_, ?_, ?_⟩
  · exact (c4_class_cardinality _ _ _ _ _).1 (by decide)
  · exact (c4_class_cardinality _ _ _ _ _).2.1 (by decide)
  · exact (c4_class_cardinality _ _ _ _ _).2.2.1 (by decide)
  · exact (c4_class_cardinality _ _ _ _ _).2.2.2 3 (by decide) (by decide)
      (by decide)

/-- C10 amended: the class cardinality, and whether the constructor's
cardinality validation succeeds at all, depend only on the training labels;
the test labels (and the other inputs) never influence it, so inconsistent or
background-less test labels are not rejected. -/
theorem c10_cardinality_train_only_amended {Img : Type}
    (ia ita ita2 : List (List Img)) (la lta lta2 : List (List LabelSample))
    (b b2 : ℕ) :
    (batchNormalize (.list ia) (.list la) (.list ita) (.list lta) b).map
        NormalizedData.numClasses =
      (batchNormalize (.list ia) (.list la) (.list ita2) (.list lta2) b2).map
        NormalizedData.numClasses := by
  rw [batchNormalize_list, batchNormalize_list]
  cases numClassesFrom la <;> rfl

/-- C10 counterexample: the training labels carry two classes and pass
validation, while the test labels hold a single distinct value (no background
class).  The Batch Normalizer accepts this input - the test labels are never
inspected - refuting the claim that test labels are rejected at construction
just like training labels. -/
theorem c10_cardinality_counterexample :
    batchNormalize (TrainData.list [[(0 : ℕ)]]) (.list [[[0], [1]]])
      (.list [[0]]) (.list [[[5]]]) 32 =
      .ok ⟨[[0]], [[[0], [1]]], [[0]], [[[5]]], 1⟩ := by
  rfl

/-- C5: `net_predict.run` hands the whole padded stack to `predict` in one
call exactly when the stack has fewer than 20 images AND the smaller spatial
dimension is below 512; in every other case it calls `predict` once per
image, passing single-image batches. -/
theorem c5_tiling_policy {Img Prob : Type} (fw : Img → Prob)
    (s : NetPredictIn Img) :
    (s.imageData.length < 20 ∧ min s.height s.width < 512 →
      netPredictRun fw s =
        (netPredictPredict fw s.imageData, [s.imageData.length])) ∧
    (¬(s.imageData.length < 20 ∧ min s.height s.width < 512) →
      netPredictRun fw s =
        ((s.imageData.map (fun im => netPredictPredict fw [im])).flatten,
         List.replicate s.imageData.length 1)) := by
  constructor
  · intro h
    unfold netPredictRun
    rw [if_pos h]
  · intro h
    unfold netPredictRun
    rw [if_neg h]

/-- Witness for C5: a 2-image stack of 64-by-64 maps goes through the
single-batch path; the same stack at 600-by-600 is processed one image at a
time. -/
theorem c5_tiling_policy_witness :
    netPredictRun (fun x : ℕ => x + 1) ⟨[5, 6], 64, 64, 1⟩ = ([6, 7], [2]) ∧
    (netPredictRun (fun x : ℕ => x + 1) ⟨[5, 6], 600, 600, 1⟩).2 =
      List.replicate 2 1 := by
  constructor
  · rw [(c5_tiling_policy (fun x : ℕ => x + 1) ⟨[5, 6], 64, 64, 1⟩).1
      (by decide)]
    rfl
  · rw [(c5_tiling_policy (fun x : ℕ => x + 1) ⟨[5, 6], 600, 600, 1⟩).2
      (by decide)]
    rfl

/-- C8: for a fixed model and fixed padded stack, the probability maps are
identical whichever branch of `net_predict.run` executes - the run output
always equals the single whole-stack `predict` call, so the single-batch path
and the per-sample tiling path compute equivalent outputs (exactly equal in
this exact-arithmetic model). -/
theorem c8_tiling_equivalence {Img Prob : Type} (fw : Img → Prob)
    (s : NetPredictIn Img) :
    (netPredictRun fw s).1 = netPredictPredict fw s.imageData := by
  unfold netPredictRun
  split
  · rfl
  · show (s.imageData.map (fun im => netPredictPredict fw [im])).flatten = _
    exact flatten_map_singleton fw s.imageData

/-- C6: calling `decode` on a DKL-GPR model in independent-output
(non-shared-embedding) mode always fails with UnsupportedMode and never
returns a result, for every latent-space input. -/
theorem c6_decode_unsupported_mode {X Z P O : Type} (m : DklGPR X Z P O)
    (zEmb : List Z) (h : m.correlatedOutput = false) :
    decode m zEmb = .error .unsupportedMode := by
  unfold decode
  rw [h]
  rfl

/-- Witness for C6: a concrete independent-output model rejects a concrete
latent point. -/
theorem c6_decode_unsupported_mode_witness :
    decode dklIndep [0] = .error .unsupportedMode :=
  c6_decode_unsupported_mode dklIndep [0] rfl

/-- C3: during a run of n cycles with finite recorded test losses L, the model
state is persisted as the best checkpoint at cycle e if and only if e is a
completed cycle, e > 0, and the cycle's recorded test loss is strictly less
than every previously recorded test loss (equivalently, strictly less than
their minimum); the persisted state is the one produced by cycle e's training
step. -/
theorem c3_best_checkpoint_iff (trainStepF : M → Batch Img → M × PyFloat)
    (testStepF : M → Batch Img → PyFloat) (nt : NetTrain Img) (net0 : M)
    (L : ℕ → ℚ)
    (hL : ∀ j, testLossSeq trainStepF testStepF nt net0 j = .fin (L j))
    (n e : ℕ) (l : PyFloat) (m : M) :
    (e, l, m) ∈ (runLoop trainStepF testStepF nt net0 n).bestSaved ↔
      e < n ∧ 0 < e ∧ l = .fin (L e) ∧
        m = netAfter trainStepF testStepF nt net0 (e + 1) ∧
        ∀ j < e, L e < L j := by
  rw [mem_bestSaved, saveCondAt_iff_fin trainStepF testStepF nt net0 L hL,
    hL e]
  tauto

/-- Witness for C3: with test losses 2 then 1, the strict improvement at
cycle 1 persists a best checkpoint recording loss 1. -/
theorem c3_best_checkpoint_iff_witness :
    (1, PyFloat.fin 1, ()) ∈ (runLoop trFW teFW ntW () 2).bestSaved := by
  refine (c3_best_checkpoint_iff trFW teFW ntW () LW ?_ 2 1 _ _).mpr ?_
  · intro j
    match j with
    | 0 => rfl
    | 1 => rfl
    | j + 2 => rfl
  · refine ⟨by omega, by omega, rfl, rfl, ?_⟩
    intro j hj
    have hj0 : j = 0 := by omega
    subst hj0
    norm_num [LW]

/-- C7 amended: a best checkpoint exists after a run of n cycles iff some
cycle e > 0 records a test loss strictly below all previous ones; when it
exists, the last-written best checkpoint records the minimum test loss over
the ENTIRE history (hence it is ≤ every test loss of any later cycle).  For
sequences whose minimum occurs at cycle 0 and is never strictly beaten - the
case the claim explicitly includes - no best checkpoint is written at all. -/
theorem c7_best_checkpoint_minimum_amended
    (trainStepF : M → Batch Img → M × PyFloat)
    (testStepF : M → Batch Img → PyFloat) (nt : NetTrain Img) (net0 : M)
    (L : ℕ → ℚ)
    (hL : ∀ j, testLossSeq trainStepF testStepF nt net0 j = .fin (L j))
    (n : ℕ) :
    ((runLoop trainStepF testStepF nt net0 n).bestSaved ≠ [] ↔
      ∃ e, e < n ∧ 0 < e ∧ ∀ j < e, L e < L j) ∧
    (∀ e l m,
      ((runLoop trainStepF testStepF nt net0 n).bestSaved).getLast? =
        some (e, l, m) →
      l = .fin (L e) ∧ ∀ j < n, L e ≤ L j) := by
  constructor
  · constructor
    · intro hne
      obtain ⟨⟨e, l, m⟩, hmem⟩ := List.exists_mem_of_ne_nil _ hne
      rw [mem_bestSaved] at hmem
      obtain ⟨h1, h2, -, -⟩ := hmem
      obtain ⟨h0, hstr⟩ :=
        (saveCondAt_iff_fin trainStepF testStepF nt net0 L hL e).mp h2
      exact ⟨e, h1, h0, hstr⟩
    · rintro ⟨e, h1, h0, hstr⟩
      refine List.ne_nil_of_mem
        ((mem_bestSaved trainStepF testStepF nt net0 n e (.fin (L e))
          (netAfter trainStepF testStepF nt net0 (e + 1))).mpr
          ⟨h1, ?_, (hL e).symm, rfl⟩)
      rw [saveCondAt_iff_fin trainStepF testStepF nt net0 L hL]
      exact ⟨h0, hstr⟩
  · intro e l m h
    obtain ⟨-, -, h3, -, h5⟩ :=
      bestSaved_getLast_min trainStepF testStepF nt net0 L hL n e l m h
    exact ⟨h3, h5⟩

/-- Witness for C7's amended statement: with test losses 2 then 1 the best
checkpoint list is nonempty. -/
theorem c7_best_checkpoint_minimum_witness :
    (runLoop trFW teFW ntW () 2).bestSaved ≠ [] := by
  refine ((c7_best_checkpoint_minimum_amended trFW teFW ntW () LW ?_ 2).1).mpr
    ?_
  · intro j
    match j with
    | 0 => rfl
    | 1 => rfl
    | j + 2 => rfl
  · refine ⟨1, by omega, by omega, ?_⟩
    intro j hj
    have hj0 : j = 0 := by omega
    subst hj0
    norm_num [LW]

/-- C7 counterexample: with recorded test losses 1 then 2 (the minimum occurs
at cycle 0 and is never strictly beaten), the completed training run writes no
best checkpoint at all, so "after any training run completes, a best
checkpoint file exists" is false as stated. -/
theorem c7_best_checkpoint_minimum_counterexample :
    (runLoop trFW teFW7 ntW () 2).bestSaved = [] := by
  decide

/-- C9 amended: the training loop has no abort path - it records exactly one
test loss per cycle for all n cycles, whatever values (finite or not) the loss
collaborators produce - and the strict-< best-checkpoint comparison never
persists a state whose recorded test loss is NaN or +inf (a -inf loss,
however, IS persisted; see the counterexample). -/
theorem c9_nonfinite_loss_amended (trainStepF : M → Batch Img → M × PyFloat)
    (testStepF : M → Batch Img → PyFloat) (nt : NetTrain Img) (net0 : M)
    (n : ℕ) :
    (runLoop trainStepF testStepF nt net0 n).testLoss.length = n ∧
    ∀ e l m, (e, l, m) ∈ (runLoop trainStepF testStepF nt net0 n).bestSaved →
      l ≠ .nan ∧ l ≠ .inf := by
  refine ⟨runLoop_testLoss_length _ _ _ _ _, ?_⟩
  intro e l m hmem
  rw [mem_bestSaved] at hmem
  obtain ⟨-, hc, rfl, -⟩ := hmem
  unfold saveCondAt at hc
  rw [Bool.and_eq_true] at hc
  have hlt := hc.2
  constructor
  · intro hnan
    rw [hnan, PyFloat.lt_nan_left] at hlt
    exact Bool.false_ne_true hlt
  · intro hinf
    rw [hinf, PyFloat.lt_inf_left] at hlt
    exact Bool.false_ne_true hlt

/-- Witness for C9's amended statement: the run with a -inf loss still records
2 losses over 2 cycles, and the loss it persisted is neither NaN nor +inf. -/
theorem c9_nonfinite_loss_witness :
    (runLoop trFW teFW9 ntW () 2).testLoss.length = 2 ∧
    (PyFloat.negInf ≠ PyFloat.nan ∧ PyFloat.negInf ≠ PyFloat.inf) :=
  ⟨(c9_nonfinite_loss_amended trFW teFW9 ntW () 2).1,
   (c9_nonfinite_loss_amended trFW teFW9 ntW () 2).2 1 .negInf ()
     (by decide)⟩

/-- C9 counterexample: with test losses 1 then -inf, the loop completes both
cycles (it never transitions to an Aborted state - there is none) and the
best-checkpoint logic persists a model state whose recorded test loss is
-inf, a non-finite value; both halves of the claim fail. -/
theorem c9_nonfinite_loss_counterexample :
    (runLoop trFW teFW9 ntW () 2).testLoss.length = 2 ∧
    (runLoop trFW teFW9 ntW () 2).bestSaved = [(1, .negInf, ())] := by
  decide

lemma except_bind_ok {ε α β : Type} (a : α) (f : α → Except ε β) :
    ((Except.ok a : Except ε α) >>= f) = f a := rfl

/-- C1 amended: the bulk-array form computes k = floor(n / batch_size)
sections and calls np.split, which succeeds only when k is positive and
divides the array length - yielding k equal chunks of n / k samples each,
with NO samples discarded (so chunks exceed batch_size whenever batch_size
does not divide n) - and raises ValueError otherwise.  Separately, the
dataloader truncates every selected batch to its first batch_size samples, so
no batch handed to a training or test step exceeds batch_size. -/
theorem c1_bulk_split_amended {Img : Type} (xs : List Img) (k : ℕ)
    (nt : NetTrain Img) (e : ℕ) :
    (0 < k → k ∣ xs.length →
      npSplit xs k = .ok (splitIntoChunks (xs.length / k) k xs) ∧
      (splitIntoChunks (xs.length / k) k xs).length = k ∧
      ∀ c ∈ splitIntoChunks (xs.length / k) k xs,
        c.length = xs.length / k) ∧
    ((k = 0 ∨ ¬k ∣ xs.length) → npSplit xs k = .error .valueError) ∧
    ((trainBatchAt nt e).1.length ≤ nt.batchSize ∧
     (trainBatchAt nt e).2.length ≤ nt.batchSize ∧
     (testBatchAt nt e).1.length ≤ nt.batchSize ∧
     (testBatchAt nt e).2.length ≤ nt.batchSize) := by
  refine ⟨?_, ?_, ?_⟩
  · intro hk hdvd
    have hk0 : k ≠ 0 := by omega
    have hmod : xs.length % k = 0 := Nat.mod_eq_zero_of_dvd hdvd
    refine ⟨?_, splitIntoChunks_length _ _ _, ?_⟩
    · unfold npSplit
      rw [if_neg hk0, if_neg (by simp [hmod])]
    · exact splitIntoChunks_sizes _ _ _ (Nat.mul_div_cancel' hdvd).symm
  · intro h
    unfold npSplit
    by_cases hk0 : k = 0
    · rw [if_pos hk0]
    · have hndvd : ¬k ∣ xs.length := by tauto
      have hmod : xs.length % k ≠ 0 := fun hm =>
        hndvd (Nat.dvd_of_mod_eq_zero hm)
      rw [if_neg hk0, if_pos hmod]
  · exact ⟨List.length_take_le _ _, List.length_take_le _ _,
      List.length_take_le _ _, List.length_take_le _ _⟩

/-- Witness for C1's amended statement at n = 10, batch_size = 4 (so k = 2
divides 10): two chunks of five samples each - more than the batch size - and
the 10 % 3 = 1 case raises ValueError; the dataloader bound holds on the
concrete controller. -/
theorem c1_bulk_split_witness :
    npSplit (List.range 10) 2 =
      .ok (splitIntoChunks (List.length (List.range 10) / 2) 2
        (List.range 10)) ∧
    (splitIntoChunks (List.length (List.range 10) / 2) 2
      (List.range 10)).length = 2 ∧
    (∀ c ∈ splitIntoChunks (List.length (List.range 10) / 2) 2
      (List.range 10), c.length = 5) ∧
    npSplit (List.range 10) 3 = .error .valueError ∧
    (trainBatchAt ntW 0).1.length ≤ ntW.batchSize := by
  refine ⟨?_, ?_, ?_, ?_, ?_⟩
  · exact ((c1_bulk_split_amended (List.range 10) 2 ntW 0).1 (by decide)
      (by decide)).1
  · exact ((c1_bulk_split_amended (List.range 10) 2 ntW 0).1 (by decide)
      (by decide)).2.1
  · exact ((c1_bulk_split_amended (List.range 10) 2 ntW 0).1 (by decide)
      (by decide)).2.2
  · exact (c1_bulk_split_amended (List.range 10) 3 ntW 0).2.1
      (Or.inr (by decide))
  · exact (c1_bulk_split_amended (List.range 10) 2 ntW 0).2.2.1

/-- C1 counterexample: a bulk-array dataset with n = 10 samples and
batch_size = 3 (n >= b, n not divisible by b) does not yield
floor(10/3) = 3 equal batches with the remainder discarded - the Batch
Normalizer raises ValueError, because np.split requires the section count to
divide the length; and with batch_size = 4 the split succeeds but produces
chunks of 5 > 4 samples with nothing discarded. -/
theorem c1_bulk_split_counterexample :
    batchNormalize (TrainData.ndarray (List.range 10))
      (.ndarray (List.replicate 10 [0, 1])) (.ndarray (List.range 10))
      (.ndarray (List.replicate 10 [0, 1])) 3 = .error .valueError ∧
    (batchNormalize (TrainData.ndarray (List.range 10))
      (.ndarray (List.replicate 10 [0, 1])) (.ndarray (List.range 10))
      (.ndarray (List.replicate 10 [0, 1])) 4).toOption.map
        (fun r => r.labelsAll.map List.length) = some [5, 5] := by
  constructor
  · rfl
  · rfl

/-- C2 amended: every call of the `net_train` constructor raises some
exception before line 146, so no instance is ever fully constructed and
`run()` is never reached through the constructor; calls that pass the format
and class-cardinality checks AND name a supported model type and loss AND
supply at least one training and one test batch fail specifically with the
NameError raised by the unbound name `plot_training_history` at line 144. -/
theorem c2_constructor_name_error_amended {Img : Type}
    (ia : TrainData Img) (la : TrainData LabelSample) (ita : TrainData Img)
    (lta : TrainData LabelSample) (tc b : ℕ) (mt ln : String) (pl : ℕ)
    (rT rE : ℕ → ℕ) :
    (∃ err, netTrainInit ia la ita lta tc b mt ln pl rT rE = .error err) ∧
    (∀ nd, batchNormalize ia la ita lta b = .ok nd →
      (mt = "dilUnet" ∨ mt = "dilnet") →
      (ln = "dice" ∨ (ln = "ce" ∧ nd.numClasses = 1) ∨
        (ln = "ce" ∧ 2 < nd.numClasses)) →
      nd.imagesAll ≠ [] → nd.imagesTestAll ≠ [] →
      netTrainInit ia la ita lta tc b mt ln pl rT rE = .error .nameError) ∧
    (∀ (M2 : Type) (trainStepF : M2 → Batch Img → M2 × PyFloat)
      (testStepF : M2 → Batch Img → PyFloat) (net0 : M2),
      ∃ err, netTrainInitAndRun trainStepF testStepF net0 ia la ita lta tc b
        mt ln pl rT rE = .error err) := by
  refine ⟨netTrainInit_always_error ia la ita lta tc b mt ln pl rT rE, ?_, ?_⟩
  · intro nd hbn hmt hln h4 h5
    obtain ⟨mk, hmk⟩ : ∃ mk, selectModelKind mt = .ok mk := by
      rcases hmt with rfl | rfl
      · exact ⟨.dilUnet, rfl⟩
      · exact ⟨.dilnet, rfl⟩
    obtain ⟨lk, hlk⟩ : ∃ lk, selectLossKind ln nd.numClasses = .ok lk := by
      rcases hln with rfl | ⟨rfl, hnc⟩ | ⟨rfl, hnc⟩
      · exact ⟨.diceLoss, rfl⟩
      · refine ⟨.bceWithLogits, ?_⟩
        unfold selectLossKind
        rw [if_neg (by decide), if_pos (by simp [hnc])]
      · have hne1 : nd.numClasses ≠ 1 := by omega
        refine ⟨.crossEntropy, ?_⟩
        unfold selectLossKind
        rw [if_neg (by decide), if_neg (by simp [hne1]),
          if_pos (by simp [hnc])]
    have h4l : 0 < nd.imagesAll.length := List.length_pos.mpr h4
    have h5l : 0 < nd.imagesTestAll.length := List.length_pos.mpr h5
    have hr1 : npRandint 0 nd.imagesAll.length tc rT =
        .ok ((List.range tc).map
          (fun i => 0 + rT i % (nd.imagesAll.length - 0))) := by
      unfold npRandint
      rw [if_neg (by omega)]
    have hr2 : npRandint 0 nd.imagesTestAll.length tc rE =
        .ok ((List.range tc).map
          (fun i => 0 + rE i % (nd.imagesTestAll.length - 0))) := by
      unfold npRandint
      rw [if_neg (by omega)]
    unfold netTrainInit
    rw [hbn, except_bind_ok, hmk, except_bind_ok, hlk, except_bind_ok, hr1,
      except_bind_ok, hr2, except_bind_ok, nameInScope_plot_training_history]
    rfl
  · intro M2 trainStepF testStepF net0
    obtain ⟨err, herr⟩ :=
      netTrainInit_always_error ia la ita lta tc b mt ln pl rT rE
    refine ⟨err, ?_⟩
    unfold netTrainInitAndRun
    rw [herr]
    rfl

/-- Witness for C2's amended statement: a valid binary-segmentation input with
default model type and loss dies with the NameError at line 144. -/
theorem c2_constructor_name_error_witness :
    netTrainInit (TrainData.list [[(0 : ℕ)]]) (.list [[[0], [1]]])
      (.list [[0]]) (.list [[[0], [1]]]) 1 32 "dilUnet" "dice" 100
      (fun _ => 0) (fun _ => 0) = .error .nameError :=
  (c2_constructor_name_error_amended _ _ _ _ _ _ _ _ _ _ _).2.1
    ⟨[[0]], [[[0], [1]]], [[0]], [[[0], [1]]], 1⟩ rfl (Or.inl rfl)
    (Or.inl rfl) (by decide) (by decide)

/-- C2 counterexample: this input passes the format and class-cardinality
checks (the Batch Normalizer succeeds on it), yet the constructor raises the
model-dispatch NotImplementedError rather than NameError because the
model_type argument is unsupported - so "always raises an unhandled
NameError" is false as stated (the dispatch at lines 108-117 runs first). -/
theorem c2_constructor_name_error_counterexample :
    (batchNormalize (TrainData.list [[(0 : ℕ)]]) (.list [[[0], [1]]])
      (.list [[0]]) (.list [[[0], [1]]]) 32).isOk = true ∧
    netTrainInit (TrainData.list [[(0 : ℕ)]]) (.list [[[0], [1]]])
      (.list [[0]]) (.list [[[0], [1]]]) 1 32 "resnet" "dice" 100
      (fun _ => 0) (fun _ => 0) = .error .unsupportedModelType := by
  constructor
  · rfl
  · rfl

end AtomAI
